import Mathlib

/-!
Shallow embedding of `pdoc/docstrings.py` (conversion of docstring flavors
to Markdown) and verification of behavioural claims about it.

Modelling conventions:
* Python strings are modelled as `String` / `List Char`; only `'\n'` is
  treated as a line boundary (all inputs of interest use `'\n'` only).
* Python regular-expression rewrites are modelled as explicit scanners that
  mirror the matching behaviour of the concrete patterns in the source,
  including greedy/lazy backtracking effects at run boundaries.
* Filesystem reads, mimetype guessing and the environment variable read by
  the pipeline are gathered in an explicit `FS` record, so every effect is
  an explicit argument and the embedding is a pure function.
* Python exceptions are modelled with `Except`; recursion depth for the
  `include` directive is modelled with an explicit fuel argument whose
  exhaustion plays the role of `RecursionError`.
-/

namespace PdocSpec

abbrev Chars := List Char

/-- Python whitespace characters (the ASCII part of `str.strip` / `\s`). -/
def isPyWS (c : Char) : Bool :=
  c = ' ' || c = '\t' || c = '\n' || c = '\r' || c = '\x0b' || c = '\x0c'

def isSpTab (c : Char) : Bool := c = ' ' || c = '\t'

/-- A word character, as in the ASCII part of `\w`. -/
def isWordChar (c : Char) : Bool := c.isAlpha || c.isDigit || c = '_'

def squote : Char := Char.ofNat 39

def lstripWS (s : Chars) : Chars := s.dropWhile isPyWS

def rstripWS (s : Chars) : Chars := (s.reverse.dropWhile isPyWS).reverse

def stripWS (s : Chars) : Chars := rstripWS (lstripWS s)

def lstripSet (cs : Chars) (s : Chars) : Chars := s.dropWhile (fun c => cs.contains c)

def stripSet (cs : Chars) (s : Chars) : Chars :=
  ((lstripSet cs s).reverse.dropWhile (fun c => cs.contains c)).reverse

/-- Python `str.split('\n')`. -/
def splitNL : Chars → List Chars
  | [] => [[]]
  | '\n' :: rest => [] :: splitNL rest
  | c :: rest =>
    match splitNL rest with
    | [] => [[c]]
    | l :: ls => (c :: l) :: ls

def joinNL (ls : List Chars) : Chars := (ls.intersperse ['\n']).flatten

/-- Python `str.splitlines(keepends=True)` restricted to `'\n'` boundaries. -/
def linesKE : Chars → List Chars
  | [] => []
  | '\n' :: rest => ['\n'] :: linesKE rest
  | c :: rest =>
    match linesKE rest with
    | [] => [[c]]
    | l :: ls => (c :: l) :: ls

/-- A line without its trailing newline. -/
def lineBody (l : Chars) : Chars :=
  if l.getLast? = some '\n' then l.dropLast else l

/-- Longest common prefix of two character lists. -/
def lcp2 : Chars → Chars → Chars
  | a :: as, b :: bs => if a = b then a :: lcp2 as bs else []
  | _, _ => []

/-- Python `str.expandtabs()` (tab size 8). -/
def expandTabsGo (col : Nat) : Chars → Chars
  | [] => []
  | '\t' :: rest =>
    let n := 8 - col % 8
    List.replicate n ' ' ++ expandTabsGo (col + n) rest
  | '\n' :: rest => '\n' :: expandTabsGo 0 rest
  | '\r' :: rest => '\r' :: expandTabsGo 0 rest
  | c :: rest => c :: expandTabsGo (col + 1) rest

/-- `textwrap.dedent`: whitespace-only lines are normalized to empty, the
longest common space/tab margin of the remaining lines is removed. -/
def dedentL (s : Chars) : Chars :=
  let ls := (splitNL s).map (fun l => if l ≠ [] && l.all isSpTab then [] else l)
  let indents := (ls.filter (fun l => l.any (fun c => !isSpTab c))).map
    (fun l => l.takeWhile isSpTab)
  let margin := match indents with
    | [] => []
    | i :: is => is.foldl lcp2 i
  let ls2 := if margin = [] then ls
    else ls.map (fun l => if margin.isPrefixOf l then l.drop margin.length else l)
  joinNL ls2

/-- `inspect.cleandoc`. -/
def cleandocL (s : Chars) : Chars :=
  let ls := splitNL (expandTabsGo 0 s)
  match ls with
  | [] => []
  | first :: rest =>
    let margins := rest.filterMap (fun l =>
      let st := lstripWS l
      if st ≠ [] then some (l.length - st.length) else none)
    let first2 := lstripWS first
    let rest2 := match margins.min? with
      | some m => rest.map (fun l => l.drop m)
      | none => rest
    let ls2 := first2 :: rest2
    let ls3 := (ls2.reverse.dropWhile (· = [])).reverse
    let ls4 := ls3.dropWhile (· = [])
    joinNL ls4

/-- `textwrap.indent text pfx` ; `useAll = true` models the
`lambda line: True` predicate, `useAll = false` the default predicate. -/
def indentL (pfx : Chars) (useAll : Bool) (s : Chars) : Chars :=
  ((linesKE s).map (fun l => if useAll || stripWS l ≠ [] then pfx ++ l else l)).flatten

def pyLowerL (s : Chars) : Chars := s.map Char.toLower

/-- Python substring containment (`needle in hay`). -/
def containsSub : Chars → Chars → Bool
  | hay, needle =>
    match hay with
    | [] => needle.isEmpty
    | _ :: t => needle.isPrefixOf hay || containsSub t needle

def strContains (hay needle : String) : Bool := containsSub hay.data needle.data

def pyLower (s : String) : String := String.mk (pyLowerL s.data)

/-- Index of the first occurrence of `pat` in `hay`. -/
def idxOfSub (hay pat : Chars) : Option Nat :=
  match hay with
  | [] => if pat.isEmpty then some 0 else none
  | _ :: t =>
    if pat.isPrefixOf hay then some 0
    else (idxOfSub t pat).map (· + 1)

/-- Last index of `c` in `l`. -/
def lastIdxOf (c : Char) (l : Chars) : Option Nat :=
  ((List.range l.length).filter (fun i => l.get? i = some c)).getLast?

/-! ### Exceptions -/

/-- Failures of `_indented_list`: its two entry assertions and the
`ret[-1]` access on an empty list. -/
inductive SplitterErr
  | assertFail (msg : String)
  | noCurrentItem
deriving DecidableEq, Repr

/-- Basic (non-wrapping) Python exceptions raised inside the pipeline. -/
inductive BaseExn
  | assertionError (msg : String)
  | indexError
  | recursionError
  | systemExit
  | generatorExit
  | keyboardInterrupt
deriving DecidableEq, Repr

/-- The Python exceptions that the embedded pipeline can raise or re-raise.
`runtimeError` carries the message and the `from e` cause. -/
inductive Exn
  | base (b : BaseExn)
  | runtimeError (msg : String) (cause : Option BaseExn)
deriving DecidableEq, Repr

/-- `AnyException = (SystemExit, GeneratorExit, Exception)`:
`BaseException` minus `KeyboardInterrupt` (docstrings.py line 27). -/
def isAnyException : Exn → Bool
  | .base .keyboardInterrupt => false
  | _ => true

def SplitterErr.toBaseExn : SplitterErr → BaseExn
  | .assertFail msg => .assertionError msg
  | .noCurrentItem => .indexError

/-! ### Filesystem / environment model -/

/-- Path arithmetic for `pathlib.Path.parent` on simple relative paths. -/
def pathParent (p : String) : String :=
  let comps := p.splitOn "/"
  if comps.length ≤ 1 then "." else String.intercalate "/" comps.dropLast

/-- `base / rel` for `pathlib` paths. -/
def pathJoin (base rel : String) : String :=
  if rel.startsWith "/" then rel
  else if base = "." then rel
  else base ++ "/" ++ rel

/-- `source.parent / rel`. -/
def parentJoin (source rel : String) : String := pathJoin (pathParent source) rel

/-- Explicit model of the effects used by the pipeline: text and byte reads
at resolved paths, mimetype guessing, and `os.environ.get("PDOC_EMBED_IMAGES")`. -/
structure FS where
  readText : String → Option String
  readBytes : String → Option (List Nat)
  guessMime : String → Option String
  envEmbed : Option String

def emptyFS : FS := ⟨fun _ => none, fun _ => none, fun _ => none, none⟩

/-! ### `_indented_list` -/

/-- `_indented_list`: split a block into items; a new item starts at a
non-blank non-indented line; other lines are appended to the current item.
The entry assertions and the `ret[-1]` access are modelled as errors. -/
def indentedListL (contents : Chars) : Except SplitterErr (List Chars) := do
  if contents.head? = some ' ' then
    throw (.assertFail (String.mk contents))
  if contents.head? = some '\n' then
    throw (.assertFail (String.mk contents))
  let groupsRev ← (linesKE contents).foldlM
    (fun (acc : List Chars) line => do
      let empty := stripWS line = []
      let indented := line.head? = some ' '
      if !(empty || indented) then
        pure (line :: acc)
      else
        match acc with
        | [] => throw SplitterErr.noCurrentItem
        | g :: gs => pure ((g ++ line) :: gs))
    ([] : List Chars)
  pure (groupsRev.reverse.map cleandocL)

def _indented_list (contents : String) : Except SplitterErr (List String) :=
  (indentedListL contents.data).map (·.map String.mk)

/-! ### Google converter -/

def GOOGLE_LIST_SECTIONS : List String := ["Args", "Raises", "Attributes"]

def GOOGLE_LIST_SECTION_ALIASES : List (String × String) :=
  [("Parameters", "Args"), ("Params", "Args"), ("Arguments", "Args")]

/-- Heading line of a Google section: the full line is `Name:` followed by a
newline, `Name` matching `[A-Z][A-Z a-z]+`. Returns the name. -/
def googleHeadName (line : Chars) : Option Chars :=
  match line.getLast? with
  | some '\n' =>
    let body := line.dropLast
    match body.getLast? with
    | some ':' =>
      let name := body.dropLast
      match name with
      | c :: cs =>
        if c.isUpper && 1 ≤ cs.length &&
            cs.all (fun d => d.isUpper || d.isLower || d = ' ') then
          some name
        else none
      | [] => none
    | _ => none
  | _ => none

/-- Continuation line of a Google section: empty, or matching `[ \t]+.+`. -/
def googleContLine (line : Chars) : Bool :=
  let body := if line.getLast? = some '\n' then line.dropLast else line
  match body with
  | [] => true
  | c :: cs => isSpTab c && 1 ≤ cs.length

/-- Split an item at the first `:` with at least one preceding character on
the first line (`re.split(r"^(.+?:)", item, maxsplit=1)`). Returns the part
up to and including the colon, and the rest. -/
def firstColonSplit (item : Chars) : Option (Chars × Chars) :=
  match item with
  | [] => none
  | c :: rest => if c = '\n' then none else firstColonGo [c] rest
where
  firstColonGo (acc : Chars) : Chars → Option (Chars × Chars)
    | [] => none
    | ':' :: r => some (acc ++ [':'], r)
    | '\n' :: _ => none
    | c :: r => firstColonGo (acc ++ [c]) r

/-- Render one item of a Google list section. -/
def googleItem (item : Chars) : Chars :=
  match firstColonSplit item with
  | some (attr, desc) =>
    (" - **").data ++ attr ++ ("** ").data ++ (indentL ("   ").data false desc).drop 3
  | none =>
    (" - ").data ++ (indentL ("   ").data false item).drop 3

/-- `_google_section`. -/
def googleSectionL (name0 : Chars) (contentsRaw : Chars) : Except SplitterErr Chars := do
  let contents0 := lstripWS (dedentL contentsRaw)
  let nameS := String.mk name0
  let name1 := match (GOOGLE_LIST_SECTION_ALIASES.lookup nameS) with
    | some a => a
    | none => nameS
  let contents ←
    if GOOGLE_LIST_SECTIONS.contains name1 then do
      let items ← indentedListL contents0
      pure (items.foldl (fun acc item => acc ++ googleItem item ++ ['\n']) [])
    else
      pure (indentL ("> ").data true contents0)
  let name2 := if name1 = "Args" then "Arguments" else name1
  pure (('\n' :: ("###### ").data) ++ name2.data ++ (":\n").data ++ contents ++ ['\n'])

/-- The scanner for `google`'s section rewrite (the `re.sub` over
`^Name:\n((\n|[ \t]+.+)+)$`), operating on keep-ends lines. -/
def googleScan : Nat → List Chars → Except SplitterErr Chars
  | 0, ls => pure ls.flatten
  | _ + 1, [] => pure []
  | f + 1, l :: rest =>
    match googleHeadName l with
    | some name =>
      let run := rest.takeWhile googleContLine
      let rest2 := rest.drop run.length
      if run.isEmpty then do
        pure (l ++ (← googleScan f rest))
      else if rest2.isEmpty then do
        -- the section body reaches the end of the text
        googleSectionL name run.flatten
      else
        -- one trailing newline is excluded from the match and survives
        let contents := run.flatten.dropLast
        if contents.isEmpty then do
          pure (l ++ (← googleScan f rest))
        else do
          let repl ← googleSectionL name contents
          pure (repl ++ '\n' :: (← googleScan f rest2))
    | none => do
      pure (l ++ (← googleScan f rest))

/-- `google`: convert Google-style docstring sections into Markdown. -/
def google (docstring : String) : Except SplitterErr String :=
  let ls := linesKE docstring.data
  (googleScan (ls.length + 1) ls).map String.mk

/-! ### NumPy converter -/

/-- NumPy heading line: the full line is `[A-Z][A-Za-z ]+` plus a newline. -/
def numpyHeadName (line : Chars) : Option Chars :=
  match line.getLast? with
  | some '\n' =>
    let name := line.dropLast
    match name with
    | c :: cs =>
      if c.isUpper && 1 ≤ cs.length &&
          cs.all (fun d => d.isUpper || d.isLower || d = ' ') then
        some name
      else none
    | [] => none
  | _ => none

/-- NumPy dashed underline: at least three dashes followed by a newline. -/
def numpyDashLine (line : Chars) : Bool :=
  match line.getLast? with
  | some '\n' =>
    let body := line.dropLast
    3 ≤ body.length && body.all (· = '-')
  | _ => false

/-- The section split of `numpy` (`re.split` on `^Heading\n---+\n+`),
returning the text before the first heading and the (heading, content)
pairs. The `\n+` of the pattern consumes blank lines after the underline. -/
def numpySplitGo : Nat → List Chars → (Chars × List (Chars × Chars))
  | 0, ls => (ls.flatten, [])
  | _ + 1, [] => ([], [])
  | _ + 1, [l] => (l, [])
  | f + 1, l1 :: l2 :: rest =>
    match numpyHeadName l1 with
    | some h =>
      if numpyDashLine l2 then
        let blanks := rest.takeWhile (· = ['\n'])
        let rest2 := rest.drop blanks.length
        let (content, pairs) := numpySplitGo f rest2
        ([], (h, content) :: pairs)
      else
        let (pre, pairs) := numpySplitGo f (l2 :: rest)
        (l1 ++ pre, pairs)
    | none =>
      let (pre, pairs) := numpySplitGo f (l2 :: rest)
      (l1 ++ pre, pairs)

/-- The negative lookahead `(?![ \n])` of the tail-split pattern: it
succeeds at the end of the string and before any character that is neither
a space nor a newline. -/
def breakHere (rest : Chars) : Bool :=
  match rest with
  | [] => true
  | d :: _ => d ≠ ' ' && d ≠ '\n'

/-- First `\n` at which the lookahead succeeds
(`re.split(r"\n(?![ \n])", content, maxsplit=1)`); a final `\n` qualifies,
because the negative lookahead succeeds at the end of the string. -/
def breakSplitL : Chars → Option (Chars × Chars)
  | [] => none
  | c :: rest =>
    if c = '\n' && breakHere rest then some ([], rest)
    else
      match breakSplitL rest with
      | some (l, r) => some (c :: l, r)
      | none => none

/-- `_numpy_seealso`: one item. -/
def numpySeealsoItem (item : Chars) : Chars :=
  let (funcstr, desc) :=
    match idxOfSub item [':'] with
    | some i => (item.take i, (": ").data ++ item.drop (i + 1))
    | none => (item, [])
  let parts := (splitOnSpace funcstr).map stripWS
  let funcs := ((parts.filter (· ≠ [])).map (fun f => '`' :: f ++ ['`'])).intersperse ((", ").data)
  funcs.flatten ++ desc ++ ("  \n").data
where
  splitOnSpace : Chars → List Chars
    | [] => [[]]
    | ' ' :: rest => [] :: splitOnSpace rest
    | c :: rest =>
      match splitOnSpace rest with
      | [] => [[c]]
      | l :: ls => (c :: l) :: ls

/-- `_numpy_seealso`. -/
def numpySeealsoL (content : Chars) : Except SplitterErr Chars := do
  let items ← indentedListL content
  pure (items.foldl (fun acc item => acc ++ numpySeealsoItem item) [])

/-- The `re.match(r"^(.+):(.+)([\s\S]*)", item)` of `_numpy_parameters`:
the last `:` on the first line that has at least one character after it on
that line. -/
def numpyParamSplit (item : Chars) : Option (Chars × Chars × Chars) :=
  let fl := item.takeWhile (· ≠ '\n')
  let rest := item.drop fl.length
  match (((List.range fl.length).filter
      (fun i => fl.get? i = some ':' && i + 1 < fl.length)).getLast?) with
  | some j => some (fl.take j, fl.drop (j + 1), rest)
  | none => none

/-- `_numpy_parameters`: one item. -/
def numpyParamItem (item : Chars) : Chars :=
  match numpyParamSplit item with
  | some (g1, g2, g3) =>
    (" - **").data ++ stripWS g1 ++ ("** (").data ++ stripWS g2 ++ ("):\n").data ++
      indentL ("   ").data false (stripWS g3) ++ ['\n']
  | none =>
    let (name, desc) :=
      match idxOfSub item ['\n'] with
      | some i => (stripWS (item.take i), stripWS (item.drop (i + 1)))
      | none => (stripWS item, [])
    if desc ≠ [] then
      (" - **").data ++ name ++ ("**: ").data ++ desc ++ ['\n']
    else
      (" - **").data ++ name ++ ("**\n").data

/-- `_numpy_parameters`. -/
def numpyParametersL (content : Chars) : Except SplitterErr Chars := do
  let items ← indentedListL content
  pure ((items.foldl (fun acc item => acc ++ numpyParamItem item) []) ++ ['\n'])

def NUMPY_PARAM_HEADINGS : List String :=
  ["Parameters", "Returns", "Yields", "Receives", "Other Parameters",
   "Raises", "Warns", "Attributes"]

/-- Rendering of one NumPy section after the tail has been removed and the
content dedented. -/
def renderNumpySection (heading : Chars) (content : Chars) : Except SplitterErr Chars := do
  let hs := String.mk heading
  if NUMPY_PARAM_HEADINGS.contains hs then
    pure (("###### ").data ++ heading ++ ['\n'] ++ (← numpyParametersL content))
  else if hs = "See Also" then
    pure (("###### ").data ++ heading ++ ['\n'] ++ (← numpySeealsoL content))
  else
    pure (("###### ").data ++ heading ++ ['\n'] ++ content)

/-- Processing of one (heading, content) pair of `numpy`: the tail split,
dedent, and section rendering. -/
def processNumpySectionL (heading : Chars) (content : Chars) : Except SplitterErr Chars := do
  let (content2, tail) :=
    if content.head? = some ' ' then
      match breakSplitL content with
      | some (l, r) => (l, r)
      | none => (content, [])
    else (content, [])
  let rendered ← renderNumpySection heading (dedentL content2)
  pure (rendered ++ tail)

/-- String-level wrapper for one (heading, content) pair of `numpy`. -/
def processNumpySection (heading content : String) : Except SplitterErr String :=
  (processNumpySectionL heading.data content.data).map String.mk

/-- `numpy`: convert NumPy-style docstring sections into Markdown. -/
def numpy (docstring : String) : Except SplitterErr String := do
  let ls := linesKE docstring.data
  let (pre, pairs) := numpySplitGo (ls.length + 1) ls
  let out ← pairs.foldlM (fun acc hc => do
      pure (acc ++ (← processNumpySectionL hc.1 hc.2))) pre
  pure (String.mk out)

/-! ### Generic `re.sub` scanners

A matcher looks at the current suffix and, on success, returns the
replacement together with the length of the matched text; the scanner
substitutes and resumes after the match, like `re.sub`. -/

def subScan (tryM : Chars → Option (Chars × Nat)) : Nat → Chars → Chars
  | 0, s => s
  | _ + 1, [] => []
  | f + 1, c :: rest =>
    match tryM (c :: rest) with
    | some (repl, k) => repl ++ subScan tryM f ((c :: rest).drop k)
    | none => c :: subScan tryM f rest

/-- Stateful variant of `subScan` (for replacement functions that update a
counter). -/
def subScanSt {σ : Type} (tryM : σ → Chars → Option (Chars × σ × Nat)) :
    Nat → σ → Chars → Chars
  | 0, _, s => s
  | _ + 1, _, [] => []
  | f + 1, st, c :: rest =>
    match tryM st (c :: rest) with
    | some (repl, st2, k) => repl ++ subScanSt tryM f st2 ((c :: rest).drop k)
    | none => c :: subScanSt tryM f st rest

/-- If every successful match is replaced by the matched text itself, the
scan is the identity. -/
theorem subScan_id (tryM : Chars → Option (Chars × Nat))
    (h : ∀ s r k, tryM s = some (r, k) → r = s.take k) :
    ∀ f s, subScan tryM f s = s := by
  intro f
  induction f with
  | zero => intro s; rfl
  | succ f ih =>
    intro s
    match s with
    | [] => rfl
    | c :: rest =>
      show subScan tryM (f + 1) (c :: rest) = c :: rest
      cases hm : tryM (c :: rest) with
      | none =>
        simp only [subScan, hm]
        rw [ih]
      | some rk =>
        obtain ⟨r, k⟩ := rk
        have hr := h _ _ _ hm
        simp only [subScan, hm, hr, ih]
        exact List.take_append_drop k (c :: rest)

/-! ### `embed_images` -/

def b64Char (n : Nat) : Char :=
  if n < 26 then Char.ofNat ('A'.toNat + n)
  else if n < 52 then Char.ofNat ('a'.toNat + n - 26)
  else if n < 62 then Char.ofNat ('0'.toNat + n - 52)
  else if n = 62 then '+' else '/'

/-- `base64.b64encode` on a byte list. -/
def b64Encode : List Nat → Chars
  | a :: b :: c :: rest =>
    [b64Char (a / 4), b64Char (a % 4 * 16 + b / 16),
     b64Char (b % 16 * 4 + c / 64), b64Char (c % 64)] ++ b64Encode rest
  | [a, b] => [b64Char (a / 4), b64Char (a % 4 * 16 + b / 16), b64Char (b % 16 * 4), '=']
  | [a] => [b64Char (a / 4), b64Char (a % 4 * 16), '=', '=']
  | [] => []

/-- `local_image_to_data_uri`: read the file relative to the source file's
parent, base64-encode it, and build a data URI; `None` mimetypes render as
the string `None`, as in the Python f-string. -/
def localImageToDataUri (fs : FS) (source_file : String) (href : Chars) :
    Option Chars :=
  let path := parentJoin source_file (String.mk href)
  match fs.readBytes path with
  | none => none
  | some bytes =>
    let mime := match fs.guessMime path with
      | some m => m.data
      | none => ("None").data
    some (("data:").data ++ mime ++ (";base64,").data ++ b64Encode bytes)

/-- Capture groups of an image-reference match. -/
structure ImgMatch where
  before : Chars
  href : Chars
  after : Chars
  len : Nat

/-- `\s*` then `)` (the `after` group of the Markdown image pattern). -/
def wsThenParen (s : Chars) : Option Chars :=
  let w := s.takeWhile isPyWS
  match s.drop w.length with
  | ')' :: _ => some (w ++ [')'])
  | _ => none

/-- Lazy scan for the `href` of a Markdown image: the shortest non-empty
newline-free run after which `\s*\)` matches. -/
def imgHrefGo (acc : Chars) : Chars → Option (Chars × Chars)
  | [] => none
  | c :: rest =>
    if c = '\n' then none
    else
      let acc2 := acc ++ [c]
      match wsThenParen rest with
      | some a => some (acc2, a)
      | none => imgHrefGo acc2 rest

/-- Matcher for `(?P<before>!\[\s*.*?\s*]\(\s*)(?P<href>.+?)(?P<after>\s*\))`. -/
def tryImgMd (s : Chars) : Option ImgMatch :=
  match s with
  | '!' :: '[' :: rest =>
    match idxOfSub rest (("](").data) with
    | none => none
    | some i =>
      let alt := rest.take i
      if (stripWS alt).contains '\n' then none
      else
        let rest2 := rest.drop (i + 2)
        let ws := rest2.takeWhile isPyWS
        let rest3 := rest2.drop ws.length
        match imgHrefGo [] rest3 with
        | none => none
        | some (href, after) =>
          some ⟨('!' :: '[' :: alt) ++ ("](").data ++ ws, href, after,
            2 + i + 2 + ws.length + href.length + after.length⟩
  | _ => none

/-- Matcher for `(?P<before>src=['"])(?P<href>.+?)(?P<after>['"])`. -/
def tryImgSrc (s : Chars) : Option ImgMatch :=
  match s with
  | 's' :: 'r' :: 'c' :: '=' :: q :: rest =>
    if q = squote || q = '"' then
      let href := rest.takeWhile (fun c => c ≠ squote && c ≠ '"' && c ≠ '\n')
      if href.isEmpty then none
      else
        match rest.drop href.length with
        | q2 :: _ =>
          if q2 = squote || q2 = '"' then
            some ⟨("src=").data ++ [q], href, [q2], 5 + href.length + 1⟩
          else none
        | [] => none
    else none
  | _ => none

/-- `embed_local_image`: on success substitute the data URI between the
`before` and `after` groups; on any failure return the whole match. -/
def embedLocalImage (fs : FS) (source_file : String) (m0 : Chars) (m : ImgMatch) :
    Chars :=
  match localImageToDataUri fs source_file m.href with
  | some uri => m.before ++ uri ++ m.after
  | none => m0

def imgMatcher (tryI : Chars → Option ImgMatch) (fs : FS) (source_file : String)
    (s : Chars) : Option (Chars × Nat) :=
  match tryI s with
  | some m => some (embedLocalImage fs source_file (s.take m.len) m, m.len)
  | none => none

/-- `embed_images`: the two image-reference rewrites, in order. -/
def embedImagesL (fs : FS) (source_file : String) (s : Chars) : Chars :=
  let s1 := subScan (imgMatcher tryImgMd fs source_file) (s.length + 1) s
  subScan (imgMatcher tryImgSrc fs source_file) (s1.length + 1) s1

def embed_images (docstring : String) (source_file : String) (fs : FS) : String :=
  String.mk (embedImagesL fs source_file docstring.data)

/-! ### RST inline roles and math -/

def ROLE_NAMES : List String :=
  ["mod", "func", "data", "const", "class", "meth", "attr", "exc", "obj"]

/-- `replace_reference` (the replacement function inside `rst`). -/
def replace_reference (kind : String) (name : Chars) : Chars :=
  if kind = "meth" || kind = "func" then '`' :: name ++ ("()`").data
  else '`' :: name ++ ['`']

/-- Matcher for `:(role):`name`` without the optional `:py` prefix. -/
def tryRoleCore (s : Chars) : Option (Chars × Nat) :=
  match s with
  | ':' :: rest =>
    match ROLE_NAMES.find? (fun r => r.data.isPrefixOf rest) with
    | some r =>
      let rest2 := rest.drop r.length
      match rest2 with
      | ':' :: '`' :: rest3 =>
        let nm := rest3.takeWhile (· ≠ '`')
        if nm.isEmpty then none
        else
          match rest3.drop nm.length with
          | '`' :: _ => some (replace_reference r nm, 1 + r.length + 2 + nm.length + 1)
          | _ => none
      | _ => none
    | none => none
  | _ => none

/-- Matcher for `(:py)?:(mod|func|...):`name``. -/
def tryRole (s : Chars) : Option (Chars × Nat) :=
  match s with
  | ':' :: 'p' :: 'y' :: rest =>
    match tryRoleCore rest with
    | some (repl, k) => some (repl, k + 3)
    | none => tryRoleCore s
  | _ => tryRoleCore s

/-- Matcher for `:math:`expr``, replaced by `\\( expr \\)`. -/
def tryMath (s : Chars) : Option (Chars × Nat) :=
  if (":math:`").data.isPrefixOf s then
    let rest := s.drop 7
    let expr := rest.takeWhile (fun c => c ≠ '`' && c ≠ '\n')
    if expr.isEmpty then none
    else
      match rest.drop expr.length with
      | '`' :: _ => some (("\\\\( ").data ++ expr ++ (" \\\\)").data, 7 + expr.length + 1)
      | _ => none
  else none

/-! ### `_rst_links` -/

/-- Normalisation of a link id on registration: `re.sub(r"\s", "", id.lower())`. -/
def normalizeLinkId (id : Chars) : Chars :=
  (pyLowerL id).filter (fun c => !isPyWS c)

/-- Normalisation of a link reference: `re.sub(r"[\s`]", "", text.lower())`. -/
def normalizeLinkRef (text : Chars) : Chars :=
  (pyLowerL text).filter (fun c => !(isPyWS c || c = '`'))

/-- The terminator `>`​`_` that follows the lazy url of an embedded URI. -/
def embUriTerm : Chars := ['>', '`', '_']

/-- The lazy `.+?` url of an embedded URI: the shortest non-empty
newline-free run after which `>`​`_` follows. The url may contain interior
backticks, because `.` matches them. -/
def embUriUrlScan (acc : Chars) : Chars → Option Chars
  | [] => none
  | c :: rest =>
    if c = '\n' then none
    else
      let acc2 := acc ++ [c]
      if embUriTerm.isPrefixOf rest then some acc2
      else embUriUrlScan acc2 rest

/-- Matcher for embedded URIs `` `text<url>`_ `` → `[text](url)`. The
greedy `[^`]+` text cannot contain a backtick and ends at the last `<`
for which the rest of the pattern matches, so the candidate `<` positions
are tried from the last one backwards. -/
def tryEmbUri (s : Chars) : Option (Chars × Nat) :=
  match s with
  | '`' :: rest =>
    let run := rest.takeWhile (· ≠ '`')
    (((List.range run.length).filter
        (fun j => run.get? j = some '<' && 1 ≤ j)).reverse).findSome?
      (fun j =>
        match embUriUrlScan [] (rest.drop (j + 1)) with
        | some url =>
          some ('[' :: run.take j ++ ("](").data ++ url ++ [')'],
            j + url.length + 5)
        | none => none)
  | _ => none

/-- One decomposition attempt of the hyperlink-target pattern
`^\s*..\s+_(?P<id>[^\n:]+):\s*(?P<url>http\S+)` at a line-start position:
`l` is the chosen length of the leading `\s*` (which may span newlines),
the two unescaped dots match any two non-newline characters, `\s+` and the
`\s*` after the colon may span newlines again, and the url must be
`http` followed by at least one non-whitespace character. Returns
(id, url, length of the whole match). -/
def tryLinkTargetDecomp (s : Chars) (l : Nat) : Option (Chars × Chars × Nat) :=
  match s.drop l with
  | c1 :: c2 :: r1 =>
    if c1 = '\n' || c2 = '\n' then none
    else
      let w2 := r1.takeWhile isPyWS
      if w2.isEmpty then none
      else
        match r1.drop w2.length with
        | '_' :: r2 =>
          let id := r2.takeWhile (fun c => c ≠ ':' && c ≠ '\n')
          if id.isEmpty then none
          else
            match r2.drop id.length with
            | ':' :: r3 =>
              let w3 := r3.takeWhile isPyWS
              let u := (r3.drop w3.length).takeWhile (fun c => !isPyWS c)
              if ("http").data.isPrefixOf u && 5 ≤ u.length then
                some (id, u,
                  l + 2 + w2.length + 1 + id.length + 1 + w3.length + u.length)
              else none
            | _ => none
        | _ => none
  | _ => none

/-- The hyperlink-target match anchored at a line start: the greedy `\s*`
is tried from its maximal length downwards, as the regex engine does. -/
def tryLinkTargetAt (s : Chars) : Option (Chars × Chars × Nat) :=
  (((List.range ((s.takeWhile isPyWS).length + 1)).reverse).findSome?
    (tryLinkTargetDecomp s))

/-- `register_link`: scan the text for target matches anchored at line
starts; each match is removed and its normalized id registered (later
definitions win, as for a Python dict). -/
def registerLinksScan : Nat → List (Chars × Chars) → Bool → Chars →
    (List (Chars × Chars) × Chars)
  | 0, links, _, s => (links, s)
  | _ + 1, links, _, [] => (links, [])
  | f + 1, links, atStart, c :: rest =>
    match cond atStart (tryLinkTargetAt (c :: rest)) none with
    | some (id, url, k) =>
      registerLinksScan f ((normalizeLinkId id, url) :: links) false
        ((c :: rest).drop k)
    | none =>
      let p := registerLinksScan f links (c == '\n') rest
      (p.1, c :: p.2)

/-- `replace_link`: the replacement for one reference match, given the whole
id group (`idtext`, backticks included for the backtick form). -/
def replace_link (links : List (Chars × Chars)) (idtext : Chars) : Chars :=
  match links.lookup (normalizeLinkRef idtext) with
  | some url => '[' :: stripSet ['`'] idtext ++ ("](").data ++ url ++ [')']
  | none => idtext ++ ['_']

def linkClassChar (c : Char) : Bool :=
  c.isAlpha || c.isDigit || c = '_' || c = '-' || c = '.' || c = ':' || c = '+'

/-- Matcher for `(?P<id>[A-Za-z0-9_\-.:+]|`[^`]+`)_`. -/
def tryLinkRef (links : List (Chars × Chars)) (s : Chars) : Option (Chars × Nat) :=
  match s with
  | '`' :: rest =>
    let span := rest.takeWhile (· ≠ '`')
    if span.isEmpty then none
    else
      match rest.drop span.length with
      | '`' :: '_' :: _ =>
        some (replace_link links ('`' :: span ++ ['`']), span.length + 3)
      | _ => none
  | c :: '_' :: _ =>
    if linkClassChar c then some (replace_link links [c], 2) else none
  | _ => none

/-- `_rst_links`, on character lists. -/
def rstLinksL (s : Chars) : Chars :=
  let s1 := subScan tryEmbUri (s.length + 1) s
  let (links, s2) := registerLinksScan (s1.length + 1) [] true s1
  subScan (tryLinkRef links) (s2.length + 1) s2

def _rst_links (contents : String) : String := String.mk (rstLinksL contents.data)

/-! ### `_rst_footnotes` -/

/-- Footnote id pattern `\d+|[#*]\w*`. Returns (id, rest). -/
def parseFnId (s : Chars) : Option (Chars × Chars) :=
  match s with
  | c :: rest =>
    if c.isDigit then
      let ds := s.takeWhile Char.isDigit
      some (ds, s.drop ds.length)
    else if c = '#' || c = '*' then
      let ws := rest.takeWhile isWordChar
      some (c :: ws, rest.drop ws.length)
    else none
  | [] => none

/-- The shared id resolution of both footnote passes: anonymous markers take
`fn-<autonum>` and bump the counter, then leading `#`/`*` are stripped. -/
def resolveFnId (autonum : Nat) (id : Chars) : Chars × Nat :=
  let (fn1, n2) :=
    if containsSub ("*#").data id then ((("fn-") ++ toString autonum).data, autonum + 1)
    else (id, autonum)
  (lstripSet ['#', '*'] fn1, n2)

/-- `replace_references`: one footnote reference, given the matched id. -/
def replaceOneFnRef (footnotes : List Chars) (autonum : Nat) (id : Chars) :
    Chars × Nat :=
  let (fid, n2) := resolveFnId autonum id
  if footnotes.contains fid then (("[^").data ++ fid ++ [']'], n2)
  else ('[' :: id ++ ("]_").data, n2)

/-- Matcher for footnote references `\[(\d+|[#*]\w*)]_`. -/
def tryFnRef (footnotes : List Chars) (autonum : Nat) (s : Chars) :
    Option (Chars × Nat × Nat) :=
  match s with
  | '[' :: rest =>
    match parseFnId rest with
    | some (id, r2) =>
      match r2 with
      | ']' :: '_' :: _ =>
        let (repl, n2) := replaceOneFnRef footnotes autonum id
        some (repl, n2, 1 + id.length + 2)
      | _ => none
    | none => none
  | _ => none

/-- Head line of a footnote definition
`^(?P<indent>[ ]*)\.\.[ ]+\[(?P<id>\d+|[#*]\w*)]`; `lineBody` is the line
without its newline. Returns (indent, id, length of the head up to `]`). -/
def parseFnHead (lineBody : Chars) : Option (Chars × Chars × Nat) :=
  let ind := lineBody.takeWhile (· = ' ')
  match lineBody.drop ind.length with
  | '.' :: '.' :: r1 =>
    let sp := r1.takeWhile (· = ' ')
    if sp.isEmpty then none
    else
      match r1.drop sp.length with
      | '[' :: r2 =>
        match parseFnId r2 with
        | some (id, r3) =>
          match r3 with
          | ']' :: _ => some (ind, id, ind.length + 2 + sp.length + 1 + id.length + 1)
          | _ => none
        | none => none
      | _ => none
  | _ => none

/-- Continuation line of an indentation-scoped block
(`\n | (?P=indent)[ ]+.+`): blank, or the indent followed by at least one
more space and at least one character. -/
def blockContLine (ind : Chars) (line : Chars) : Bool :=
  let body := if line.getLast? = some '\n' then line.dropLast else line
  match body with
  | [] => true
  | _ =>
    ind.isPrefixOf body &&
      (match body.drop ind.length with
       | c :: cs => c = ' ' && 1 ≤ cs.length
       | [] => false)

/-- The matched text of an indentation-scoped block: the head line plus the
run of continuation lines; if the block does not reach the end of the text,
one trailing newline is excluded from the match. Returns the matched text
and the remaining lines (`none` marks that a newline was excluded and must
be re-emitted). -/
def blockMatch (ind : Chars) (headLine : Chars) (rest : List Chars) :
    Chars × Bool × List Chars :=
  let run := rest.takeWhile (blockContLine ind)
  let rest2 := rest.drop run.length
  let whole := headLine ++ run.flatten
  if rest2.isEmpty then (whole, false, [])
  else (whole.dropLast, true, rest2)

/-- The definition pass of `_rst_footnotes`: register each definition and
rewrite it to `[^id]: content`. State: (footnotes, autonum). -/
def registerFnGo : Nat → List Chars → Nat → List Chars → (List Chars × Chars)
  | 0, fns, _, ls => (fns, ls.flatten)
  | _ + 1, fns, _, [] => (fns, [])
  | f + 1, fns, autonum, l :: rest =>
    match parseFnHead (lineBody l) with
    | some (ind, id, headLen) =>
      let (m, cut, rest2) := blockMatch ind l rest
      let content := m.drop headLen
      let (fid, n2) := resolveFnId autonum id
      let content2 := lstripWS (indentL ("   ").data false content)
      let repl := ind ++ ("[^").data ++ fid ++ ("]: ").data ++ content2
      let (fns3, out) := registerFnGo f (fid :: fns) n2 rest2
      (fns3, repl ++ (if cut then ['\n'] else []) ++ out)
    | none =>
      let (fns3, out) := registerFnGo f fns autonum rest
      (fns3, l ++ out)

/-- `_rst_footnotes`, on character lists: the definition pass, then the
reference pass; each pass starts its own counter at 1. -/
def rstFootnotesL (contents : Chars) : Chars :=
  let ls := linesKE contents
  let (fns, c1) := registerFnGo (ls.length + 1) [] 1 ls
  subScanSt (tryFnRef fns) (c1.length + 1) 1 c1

def _rst_footnotes (contents : String) : String := String.mk (rstFootnotesL contents.data)

/-! ### `_rst_fields` -/

inductive FieldKind
  | fParam
  | fType
  | fReturn
  | fRtype
  | fRaises
deriving DecidableEq, Repr

def parseFieldWord (s : Chars) : Option (FieldKind × Nat) :=
  if ("param").data.isPrefixOf s then some (.fParam, 5)
  else if ("type").data.isPrefixOf s then some (.fType, 4)
  else if ("return").data.isPrefixOf s then some (.fReturn, 6)
  else if ("rtype").data.isPrefixOf s then some (.fRtype, 5)
  else if ("raises").data.isPrefixOf s then some (.fRaises, 6)
  else none

/-- Head of a field match `^:(?P<type>...)(?:[ ]+(?P<name>.+))?:`; returns
the field kind, the optional name group, and the length of the head up to
and including its final colon. The greedy name group extends to the last
colon of the line. -/
def parseFieldHead (body : Chars) : Option (FieldKind × Option Chars × Nat) :=
  match body with
  | ':' :: r0 =>
    match parseFieldWord r0 with
    | some (ft, wlen) =>
      let r1 := r0.drop wlen
      match r1 with
      | ':' :: _ => some (ft, none, 1 + wlen + 1)
      | ' ' :: _ =>
        let sp := r1.takeWhile (· = ' ')
        match lastIdxOf ':' r1 with
        | some j =>
          if 2 ≤ j then
            let i := min sp.length (j - 1)
            some (ft, some ((r1.take j).drop i), 1 + wlen + j + 1)
          else none
        | none => none
      | _ => none
    | none => none
  | _ => none

/-- A line qualifying as `[ ]+.+` (body starts with a space, length ≥ 2). -/
def fieldContQual (body : Chars) : Bool :=
  match body with
  | c :: cs => c = ' ' && 1 ≤ cs.length
  | [] => false

/-- The next group of lines absorbed into a field body
(`(?:\n[ ]*)*[ ]+.+`): a run of space-only lines followed by a qualifying
line; a space-only line of length ≥ 2 may itself close the group. Returns
the number of lines to absorb. -/
def fieldAbsorbStep (lines : List Chars) : Option Nat :=
  let bodies := lines.map lineBody
  let k := (bodies.takeWhile (fun b => b.all (· = ' '))).length
  match bodies.get? k with
  | some b =>
    if fieldContQual b then some (k + 1)
    else fieldFallback bodies k
  | none => fieldFallback bodies k
where
  fieldFallback (bodies : List Chars) (k : Nat) : Option Nat :=
    (((List.range k).filter (fun j =>
        match bodies.get? j with
        | some b => fieldContQual b
        | none => false)).getLast?).map (· + 1)

def fieldAbsorb : Nat → List Chars → (List Chars × List Chars)
  | 0, ls => ([], ls)
  | f + 1, ls =>
    match fieldAbsorbStep ls with
    | some n =>
      let (a, r) := fieldAbsorb f (ls.drop n)
      (ls.take n ++ a, r)
    | none => ([], ls)

structure FieldSt where
  hasParam : Bool
  hasRaises : Bool

/-- `_rst_field`: the replacement for one field match. -/
def renderField (st : FieldSt) (ft : FieldKind) (nameGroup : Option Chars)
    (body : Chars) : Chars × FieldSt :=
  let name := match nameGroup with
    | some n => ("**").data ++ stripWS n ++ ("**: ").data
    | none => []
  match ft with
  | .fParam =>
    let text := (" - ").data ++ name ++ body
    if st.hasParam then (text, st)
    else (("\n###### Parameters\n").data ++ text, { st with hasParam := true })
  | .fType => ([], st)
  | .fReturn => (("\n###### Returns\n").data ++ indentL ("> ").data true body, st)
  | .fRtype => ([], st)
  | .fRaises =>
    let text := (" - ").data ++ name ++ body
    if st.hasRaises then (text, st)
    else (("\n###### Raises\n").data ++ text, { st with hasRaises := true })

def fieldsGo : Nat → FieldSt → List Chars → Chars
  | 0, _, ls => ls.flatten
  | _ + 1, _, [] => []
  | f + 1, st, l :: rest =>
    match parseFieldHead (lineBody l) with
    | some (ft, nameGroup, headLen) =>
      let (absorbed, rest2) := fieldAbsorb (rest.length + 1) rest
      let matched := (l :: absorbed).flatten
      let body := matched.drop headLen
      let (repl, st2) := renderField st ft nameGroup body
      repl ++ fieldsGo f st2 rest2
    | none => l ++ fieldsGo f st rest

def rstFieldsL (contents : Chars) : Chars :=
  let ls := linesKE contents
  fieldsGo (ls.length + 1) ⟨false, false⟩ ls

def _rst_fields (contents : String) : String := String.mk (rstFieldsL contents.data)

/-! ### `_rst_extract_options` and `_rst_include_trim` -/

/-- `_rst_extract_options`: repeatedly strip `:key: value` headers
(`^\s*:(.+?):(.*)([\s\S]*)`) from the front, collecting them into an
association list where the most recent binding for a key wins. -/
def extractOptionsGo : Nat → List (Chars × Chars) → Chars →
    (Chars × List (Chars × Chars))
  | 0, opts, s => (s, opts)
  | f + 1, opts, s =>
    let ws := s.takeWhile isPyWS
    match s.drop ws.length with
    | ':' :: r1 =>
      let key := r1.takeWhile (fun c => c ≠ ':' && c ≠ '\n')
      if key.isEmpty then (s, opts)
      else
        match r1.drop key.length with
        | ':' :: r2 =>
          let value := r2.takeWhile (· ≠ '\n')
          extractOptionsGo f ((key, stripWS value) :: opts) (r2.drop value.length)
        | _ => (s, opts)
    | _ => (s, opts)

def _rst_extract_options (contents : Chars) : Chars × List (Chars × Chars) :=
  extractOptionsGo (contents.length + 1) [] contents

/-- Python `int(str)` on a simple decimal literal. -/
def pyInt (s : Chars) : Option Int :=
  let t := stripWS s
  match t with
  | '-' :: ds =>
    if ds ≠ [] && ds.all Char.isDigit then some (-(Int.ofNat (digitsToNat ds))) else none
  | '+' :: ds =>
    if ds ≠ [] && ds.all Char.isDigit then some (Int.ofNat (digitsToNat ds)) else none
  | ds =>
    if ds ≠ [] && ds.all Char.isDigit then some (Int.ofNat (digitsToNat ds)) else none
where
  digitsToNat (ds : Chars) : Nat := ds.foldl (fun a c => a * 10 + (c.toNat - 48)) 0

/-- Python list slicing `l[:i]` with possibly negative `i`. -/
def pySliceTo {α : Type} (l : List α) (i : Int) : List α :=
  if i < 0 then l.take (l.length - min l.length i.natAbs) else l.take i.toNat

/-- Python list slicing `l[i:]` with possibly negative `i`. -/
def pySliceFrom {α : Type} (l : List α) (i : Int) : List α :=
  if i < 0 then l.drop (l.length - min l.length i.natAbs) else l.drop i.toNat

/-- `_rst_include_trim`; the error is Python's `ValueError` (from `int`
or from `str.index`). -/
def includeTrimL (contents : Chars) (opts : List (Chars × Chars)) :
    Except Unit Chars := do
  let getOpt := fun (k : String) => opts.lookup k.data
  let contents ←
    if (getOpt "end-line").isSome || (getOpt "start-line").isSome then do
      let lines0 := (linesKE contents).map lineBody
      let lines1 ←
        match getOpt "end-line" with
        | some v =>
          if v ≠ [] then do
            match pyInt v with
            | some i => pure (pySliceTo lines0 i)
            | none => throw ()
          else pure lines0
        | none => pure lines0
      let lines2 ←
        match getOpt "start-line" with
        | some v =>
          if v ≠ [] then do
            match pyInt v with
            | some i => pure (pySliceFrom lines1 i)
            | none => throw ()
          else pure lines1
        | none => pure lines1
      pure (joinNL lines2)
    else pure contents
  let contents ←
    match getOpt "end-before" with
    | some x =>
      if x ≠ [] then
        match idxOfSub contents x with
        | some i => pure (contents.take i)
        | none => throw ()
      else pure contents
    | none => pure contents
  let contents ←
    match getOpt "start-after" with
    | some x =>
      if x ≠ [] then
        match idxOfSub contents x with
        | some i => pure (contents.drop (i + x.length))
        | none => throw ()
      else pure contents
    | none => pure contents
  pure contents

/-! ### `_rst_admonitions` -/

/-- Warnings emitted through `warnings.warn` by the include handling. -/
inductive Warning
  | cannotInclude (val : String)
  | badIncludeOptions (val : String)
deriving DecidableEq, Repr

def ADMONITION_TYPES : List String :=
  ["note", "warning", "danger", "versionadded", "versionchanged", "deprecated",
   "seealso", "math", "include", "code-block"]

/-- Head line of an admonition
`^(?P<indent>[ ]*)\.\.[ ]+(?P<type>...)::(?P<val>.*)`; returns
(indent, type, val group). -/
def parseAdmHead (body : Chars) : Option (Chars × String × Chars) :=
  let ind := body.takeWhile (· = ' ')
  match body.drop ind.length with
  | '.' :: '.' :: r1 =>
    let sp := r1.takeWhile (· = ' ')
    if sp.isEmpty then none
    else
      match ADMONITION_TYPES.find? (fun t => t.data.isPrefixOf (r1.drop sp.length)) with
      | some t =>
        match (r1.drop sp.length).drop t.length with
        | ':' :: ':' :: r3 => some (ind, t, r3)
        | _ => none
      | none => none
  | _ => none

/-- `_rst_admonition`: render one matched admonition.  `recur` is the
recursive admonition processing applied to included files. -/
def renderAdm (recur : Option String → Chars → Except Unit (Chars × List Warning))
    (fs : FS) (sf : Option String) (ind : Chars) (tp : String) (valRaw : Chars)
    (contentsRaw : Chars) : Except Unit (Chars × List Warning) := do
  let val := stripWS valRaw
  let contents0 := stripWS (dedentL contentsRaw)
  let (contents, options) := _rst_extract_options contents0
  if tp = "include" then do
    let loc := sf.getD "."
    let path := parentJoin loc (String.mk val)
    let (inc0, w1) :=
      match fs.readText path with
      | some t => (t.data, ([] : List Warning))
      | none => (['\n'], [Warning.cannotInclude (String.mk val)])
    let (inc1, w2) :=
      match includeTrimL inc0 options with
      | .ok t => (t ++ ['\n'], ([] : List Warning))
      | .error () => (inc0, [Warning.badIncludeOptions (String.mk val)])
    let (inc2, w3) ← recur (some path) inc1
    let inc3 := embedImagesL fs path inc2
    pure (indentL ind false inc3, w1 ++ w2 ++ w3)
  else if tp = "math" then
    pure (ind ++ ("$$").data ++ val ++ contents ++ ("$$\n").data, [])
  else if tp = "note" || tp = "warning" || tp = "danger" then
    let heading := if val ≠ [] then ind ++ ("###### ").data ++ val ++ ['\n'] else []
    pure (ind ++ ("<div class=\"alert ").data ++ tp.data ++ ("\" markdown=\"1\">\n").data ++
      heading ++ indentL ind false contents ++ ['\n'] ++ ind ++ ("</div>\n").data, [])
  else if tp = "code-block" then
    pure (ind ++ ("```").data ++ val ++ ['\n'] ++ contents ++ ("\n```\n").data, [])
  else
    let text :=
      if tp = "versionadded" then ("New in version ").data ++ val
      else if tp = "versionchanged" then ("Changed in version ").data ++ val
      else if tp = "deprecated" then ("Deprecated since version ").data ++ val
      else stripWS (tp.data ++ ' ' :: val)
    if contents ≠ [] then
      pure (ind ++ '*' :: text ++ (":*\n").data ++ indentL ind false contents ++
        ("\n\n").data, [])
    else
      pure (ind ++ '*' :: text ++ (".*\n").data, [])

/-- The line scanner of `_rst_admonitions`, parameterized by the renderer
for matched blocks. -/
def admScan (render : Chars → String → Chars → Chars → Except Unit (Chars × List Warning)) :
    Nat → List Chars → Except Unit (Chars × List Warning)
  | 0, ls => pure (ls.flatten, [])
  | _ + 1, [] => pure ([], [])
  | f + 1, l :: rest => do
    let body := lineBody l
    match parseAdmHead body with
    | some (ind, tp, valRaw) =>
      let (m, cut, rest2) := blockMatch ind l rest
      let contentsGroup := m.drop body.length
      let (repl, w1) ← render ind tp valRaw contentsGroup
      let (out, w2) ← admScan render f rest2
      pure (repl ++ (if cut then ['\n'] else []) ++ out, w1 ++ w2)
    | none => do
      let (out, w2) ← admScan render f rest
      pure (l ++ out, w2)

/-- `_rst_admonitions` with its warnings; `depth` is the recursion budget
(Python's recursion limit): exhausting it is `RecursionError`. -/
def rstAdmonitionsGo (fs : FS) : Nat → Option String → Chars →
    Except Unit (Chars × List Warning)
  | 0, _, _ => throw ()
  | d + 1, sf, s =>
    let ls := linesKE s
    admScan (fun ind tp valRaw contentsRaw =>
        renderAdm (rstAdmonitionsGo fs d) fs sf ind tp valRaw contentsRaw)
      (ls.length + 1) ls

def rstAdmonitionsCore (depth : Nat) (fs : FS) (sf : Option String) (s : Chars) :
    Except Unit (Chars × List Warning) :=
  rstAdmonitionsGo fs depth sf s

def _rst_admonitions (contents : String) (source_file : Option String) (fs : FS)
    (depth : Nat) : Except Unit String :=
  (rstAdmonitionsCore depth fs source_file contents.data).map (fun p => String.mk p.1)

/-! ### `rst` and `convert` -/

/-- `rst`: the fixed pipeline of reStructuredText rewrites. The only
failure is `RecursionError` from `include` recursion. -/
def rst (contents : String) (source_file : Option String) (fs : FS) (depth : Nat) :
    Except Unit String := do
  let (c1, _) ← rstAdmonitionsCore depth fs source_file contents.data
  let c2 := rstLinksL c1
  let c3 := subScan tryRole (c2.length + 1) c2
  let c4 := subScan tryMath (c3.length + 1) c3
  let c5 := rstFootnotesL c4
  let c6 := rstFieldsL c5
  pure (String.mk c6)

/-- Python `repr` of the optional source path, as interpolated by
`f"{source_file=}"`. -/
def reprOptPath : Option String → String
  | none => "None"
  | some p => "PosixPath(\x27" ++ p ++ "\x27)"

/-- The fixed head of the diagnostic message of `convert`. -/
def diagMsgHead : String := "Docstring processing failed for docstring=\n\"\"\"\n"

/-- The fixed tail of the diagnostic message of `convert`: the source file
and the (lowered) docformat. -/
def diagMsgTail (source_file : Option String) (docformat : String) : String :=
  "\n\"\"\"\nsource_file=" ++ reprOptPath source_file ++
    "\ndocformat=\x27" ++ docformat ++ "\x27"

/-- The message of the diagnostic `RuntimeError` raised by `convert`,
built from the docstring variable at the moment of the failure, the source
file and the (lowered) docformat. -/
def diagMsg (docstring : String) (source_file : Option String) (docformat : String) :
    String :=
  diagMsgHead ++ docstring ++ diagMsgTail source_file docformat

/-- The `from e` cause recorded on the re-raised `RuntimeError`. -/
def exnCause : Exn → Option BaseExn
  | .base b => some b
  | .runtimeError _ c => c

/-- The `except AnyException` boundary of `convert`: exceptions matching
`AnyException` are re-raised as a diagnostic `RuntimeError` (with the
original exception as cause); any other exception — `KeyboardInterrupt` —
propagates unchanged. -/
def convertHandle (docstring : String) (source_file : Option String)
    (docformat : String) (e : Exn) : Except Exn String :=
  if isAnyException e then
    .error (.runtimeError (diagMsg docstring source_file docformat) (exnCause e))
  else .error e

/-- The tail of `convert`'s try block after the numpy stage: the
conditional image embedding. -/
def convertStep4 (source_file : Option String) (fs : FS) (d3 : String) :
    Except Exn String :=
  match source_file with
  | some p =>
    if fs.envEmbed ≠ some "0" then .ok (embed_images d3 p fs) else .ok d3
  | none => .ok d3

/-- The tail of `convert`'s try block from the numpy stage on; `df` is the
lowered docformat and `d2` the current value of the docstring variable. -/
def convertStep3 (df : String) (source_file : Option String) (fs : FS)
    (d2 : String) : Except Exn String :=
  match (if strContains df "numpy" then (numpy d2).mapError (.base ·.toBaseExn)
         else .ok d2 : Except Exn String) with
  | .error e => convertHandle d2 source_file df e
  | .ok d3 => convertStep4 source_file fs d3

/-- The tail of `convert`'s try block from the google stage on. -/
def convertStep2 (df : String) (source_file : Option String) (fs : FS)
    (d1 : String) : Except Exn String :=
  match (if strContains df "google" then (google d1).mapError (.base ·.toBaseExn)
         else .ok d1 : Except Exn String) with
  | .error e => convertHandle d1 source_file df e
  | .ok d2 => convertStep3 df source_file fs d2

/-- `convert`: the dispatcher. `fuel` models the recursion limit for
`include` processing. -/
def convert (docstring docformat : String) (source_file : Option String)
    (fs : FS) (fuel : Nat) : Except Exn String :=
  let df := pyLower docformat
  match (if strContains df "google" || strContains df "numpy" ||
        strContains df "restructuredtext" then
      (rst docstring source_file fs fuel).mapError (fun _ => .base .recursionError)
    else .ok docstring : Except Exn String) with
  | .error e => convertHandle docstring source_file df e
  | .ok d1 => convertStep2 df source_file fs d1

/-! ### Helpers for the claim statements -/

/-- String-level `textwrap.dedent`. -/
def pyDedent (s : String) : String := String.mk (dedentL s.data)

/-- String-level section rendering of `numpy` (after tail split and dedent). -/
def renderNumpySectionStr (heading content : String) : Except SplitterErr String :=
  (renderNumpySection heading.data content.data).map String.mk

/-- `s` starts with `p`. -/
def strStarts (s p : String) : Bool := p.data.isPrefixOf s.data

/-- `s` ends with `p`. -/
def strEnds (s p : String) : Bool := p.data.isSuffixOf s.data

/-- `e` is a diagnostic `RuntimeError` of `convert`'s failure boundary: its
message has the diagnostic shape for the given source file and (lowered)
docformat — so it carries both — and its cause is a catchable exception. -/
def isWrappedDiag (docformat : String) (source_file : Option String) : Exn → Bool
  | .runtimeError m (some b) =>
    b ≠ BaseExn.keyboardInterrupt && strStarts m diagMsgHead &&
      strEnds m (diagMsgTail source_file docformat)
  | _ => false

theorem string_data_append (a b : String) : (a ++ b).data = a.data ++ b.data := by
  cases a; cases b; rfl

theorem isWrappedDiag_diagMsg (df : String) (sf : Option String) (d : String)
    (b : BaseExn) (hb : b ≠ .keyboardInterrupt) :
    isWrappedDiag df sf (.runtimeError (diagMsg d sf df) (some b)) = true := by
  have h1 : strStarts (diagMsg d sf df) diagMsgHead = true := by
    show diagMsgHead.data.isPrefixOf (diagMsg d sf df).data = true
    rw [diagMsg, string_data_append, string_data_append, List.isPrefixOf_iff_prefix]
    exact (List.prefix_append _ _).trans (List.prefix_append _ _)
  have h2 : strEnds (diagMsg d sf df) (diagMsgTail sf df) = true := by
    show (diagMsgTail sf df).data.isSuffixOf (diagMsg d sf df).data = true
    rw [diagMsg, string_data_append, string_data_append, List.isSuffixOf_iff_suffix]
    exact List.suffix_append _ _
  show (_ && _ && _) = true
  rw [h1, h2]
  simp [hb]

theorem isAnyException_base (b : BaseExn) (hb : b ≠ .keyboardInterrupt) :
    isAnyException (.base b) = true := by
  cases b <;> first | rfl | exact absurd rfl hb

theorem convertHandle_err_wrapped (dmid : String) (sf : Option String) (df2 : String)
    (e : Exn) (b : BaseExn) (hb : b ≠ .keyboardInterrupt)
    (h : convertHandle dmid sf df2 (.base b) = .error e) :
    isWrappedDiag df2 sf e = true := by
  rw [convertHandle, if_pos (by rw [isAnyException_base b hb])] at h
  have he : e = .runtimeError (diagMsg dmid sf df2) (some b) := by
    cases h
    rfl
  rw [he]
  exact isWrappedDiag_diagMsg df2 sf dmid b hb

theorem stage_splitter_err {α : Type} (r : Except SplitterErr α) (e : Exn)
    (h : r.mapError (fun se => Exn.base se.toBaseExn) = .error e) :
    ∃ b, e = .base b ∧ b ≠ BaseExn.keyboardInterrupt := by
  cases r with
  | ok a => simp [Except.mapError] at h
  | error se =>
    refine ⟨se.toBaseExn, ?_, ?_⟩
    · simp [Except.mapError] at h
      exact h.symm
    · cases se <;> simp [SplitterErr.toBaseExn]

theorem stage_rst_err (r : Except Unit String) (e : Exn)
    (h : r.mapError (fun _ => Exn.base .recursionError) = .error e) :
    e = .base .recursionError := by
  cases r with
  | ok a => simp [Except.mapError] at h
  | error u =>
    simp [Except.mapError] at h
    exact h.symm

theorem convertStep4_no_err (sf : Option String) (fs : FS) (d3 : String) (e : Exn)
    (h : convertStep4 sf fs d3 = .error e) : False := by
  cases sf with
  | none => simp [convertStep4] at h
  | some p =>
    by_cases hev : fs.envEmbed ≠ some "0" <;> simp [convertStep4, hev] at h

theorem convertStep3_err (df2 : String) (sf : Option String) (fs : FS)
    (d2 : String) (e : Exn) (h : convertStep3 df2 sf fs d2 = .error e) :
    isWrappedDiag df2 sf e = true := by
  rw [convertStep3] at h
  cases hn : strContains df2 "numpy" with
  | false =>
    rw [hn] at h
    simp only [Bool.false_eq_true, if_false] at h
    exact absurd h (fun hh => convertStep4_no_err sf fs d2 e hh)
  | true =>
    rw [hn] at h
    simp only [if_true] at h
    cases hnr : (numpy d2).mapError (fun se => Exn.base se.toBaseExn) with
    | ok d3 =>
      rw [hnr] at h
      exact absurd h (fun hh => convertStep4_no_err sf fs d3 e hh)
    | error e2 =>
      rw [hnr] at h
      obtain ⟨b, hb1, hb2⟩ := stage_splitter_err _ _ hnr
      subst hb1
      exact convertHandle_err_wrapped _ _ _ _ b hb2 h

theorem convertStep2_err (df2 : String) (sf : Option String) (fs : FS)
    (d1 : String) (e : Exn) (h : convertStep2 df2 sf fs d1 = .error e) :
    isWrappedDiag df2 sf e = true := by
  rw [convertStep2] at h
  cases hg : strContains df2 "google" with
  | false =>
    rw [hg] at h
    simp only [Bool.false_eq_true, if_false] at h
    exact convertStep3_err df2 sf fs d1 e h
  | true =>
    rw [hg] at h
    simp only [if_true] at h
    cases hgr : (google d1).mapError (fun se => Exn.base se.toBaseExn) with
    | ok d2 =>
      rw [hgr] at h
      exact convertStep3_err df2 sf fs d2 e h
    | error e2 =>
      rw [hgr] at h
      obtain ⟨b, hb1, hb2⟩ := stage_splitter_err _ _ hgr
      subst hb1
      exact convertHandle_err_wrapped _ _ _ _ b hb2 h

/-! ## Claims -/

/-- **C2.** Conversion is a pure function of `(text, tag, source)` together
with the explicitly-modelled filesystem/environment state and recursion
budget: two calls of `convert` with identical arguments return identical
output. In the embedding every effect of the Python code (file reads, the
environment variable, the recursion limit) is an explicit argument of
`convert`, so the result is determined by the arguments alone. -/
theorem convert_deterministic (d df : String) (sf : Option String) (fs : FS)
    (fuel : Nat) : convert d df sf fs fuel = convert d df sf fs fuel := rfl

/-- **C9.** If the lowered convention tag contains none of `"google"`,
`"numpy"`, `"restructuredtext"`, and no source location is given, `convert`
returns its input unchanged. -/
theorem convert_unknown_tag_id (d df : String) (fs : FS) (fuel : Nat)
    (hg : strContains (pyLower df) "google" = false)
    (hn : strContains (pyLower df) "numpy" = false)
    (hr : strContains (pyLower df) "restructuredtext" = false) :
    convert d df none fs fuel = .ok d := by
  unfold convert
  simp [hg, hn, hr, convertStep2, convertStep3, convertStep4]

/-- Witness for C9 at a concrete unknown tag. -/
theorem convert_unknown_tag_id_witness :
    strContains (pyLower "Markdown") "google" = false ∧
    strContains (pyLower "Markdown") "numpy" = false ∧
    strContains (pyLower "Markdown") "restructuredtext" = false ∧
    convert "hello *world*" "Markdown" none emptyFS 7 = .ok "hello *world*" :=
  ⟨by decide, by decide, by decide,
   convert_unknown_tag_id "hello *world*" "Markdown" emptyFS 7
     (by decide) (by decide) (by decide)⟩

/-- **C3 (counterexample).** Converting the Google `Args` docstring of the
claim yields bullets with *two* spaces after the bolded label (the
description keeps its leading space), so the claimed bullet
`- **x:** the input` does not occur in the output. -/
theorem google_args_counterexample :
    convert "Args:\n    x: the input\n    y (int): the count" "google" none emptyFS 7 =
      .ok "\n###### Arguments:\n - **x:**  the input\n - **y (int):**  the count\n\n" ∧
    strContains "\n###### Arguments:\n - **x:**  the input\n - **y (int):**  the count\n\n"
      "- **x:** the input" = false := by
  constructor
  · rfl
  · decide

/-- **C3 (amended).** Converting
`"Args:\n    x: the input\n    y (int): the count"` with the Google
convention yields a `###### Arguments:` heading and the bullets
`- **x:**  the input` and `- **y (int):**  the count`, the label bolded up
to and including the first colon and the description keeping its leading
space (two spaces after the closing `**`). -/
theorem google_args_amended :
    convert "Args:\n    x: the input\n    y (int): the count" "google" none emptyFS 7 =
      .ok "\n###### Arguments:\n - **x:**  the input\n - **y (int):**  the count\n\n" ∧
    strContains "\n###### Arguments:\n - **x:**  the input\n - **y (int):**  the count\n\n"
      "###### Arguments:" = true ∧
    strContains "\n###### Arguments:\n - **x:**  the input\n - **y (int):**  the count\n\n"
      " - **x:**  the input" = true ∧
    strContains "\n###### Arguments:\n - **x:**  the input\n - **y (int):**  the count\n\n"
      " - **y (int):**  the count" = true := by
  refine ⟨by rfl, by decide, by decide, by decide⟩

/-- **C4 (counterexample).** Converting
`":param x: the input\n:return: the result"` with the reStructuredText
convention: the field body keeps its leading space, so the bullet reads
`- **x**:  the input` (two spaces) and the claimed `- **x**: the input`
does not occur in the output. -/
theorem rst_fields_counterexample :
    convert ":param x: the input\n:return: the result" "restructuredtext" none emptyFS 7 =
      .ok "\n###### Parameters\n - **x**:  the input\n\n###### Returns\n>  the result" ∧
    strContains "\n###### Parameters\n - **x**:  the input\n\n###### Returns\n>  the result"
      "- **x**: the input" = false := by
  constructor
  · rfl
  · decide

/-- **C4 (amended).** Converting
`":param x: the input\n:return: the result"` with the reStructuredText
convention yields a `Parameters` section with the bullet
`- **x**:  the input` (the body keeps its leading space) and a `Returns`
section quoting the body as the blockquote `>  the result`. -/
theorem rst_fields_amended :
    convert ":param x: the input\n:return: the result" "restructuredtext" none emptyFS 7 =
      .ok "\n###### Parameters\n - **x**:  the input\n\n###### Returns\n>  the result" ∧
    strContains "\n###### Parameters\n - **x**:  the input\n\n###### Returns\n>  the result"
      "###### Parameters\n - **x**:  the input" = true ∧
    strContains "\n###### Parameters\n - **x**:  the input\n\n###### Returns\n>  the result"
      "###### Returns\n>  the result" = true := by
  refine ⟨by rfl, by decide, by decide⟩

/-- **C8.** The splitter's precondition is *not* always satisfied: for the
NumPy docstring `"Parameters\n----------\n  \n  foo"` the section content
starts with a whitespace-only line, `textwrap.dedent` normalizes it to an
empty line so the dedented content starts with `"\n"`, and
`_indented_list`'s entry assertion fires; `convert` fails with the
assertion wrapped in the diagnostic `RuntimeError`. -/
theorem numpy_splitter_assertion_fires :
    pyDedent "  \n  foo" = "\nfoo" ∧
    _indented_list "\nfoo" = .error (.assertFail "\nfoo") ∧
    convert "Parameters\n----------\n  \n  foo" "numpy" none emptyFS 7 =
      .error (.runtimeError
        "Docstring processing failed for docstring=\n\"\"\"\nParameters\n----------\n  \n  foo\n\"\"\"\nsource_file=None\ndocformat=\x27numpy\x27"
        (some (.assertionError "\nfoo"))) := by
  refine ⟨by rfl, by rfl, by rfl⟩

instance exceptDecEq {e a : Type} [DecidableEq e] [DecidableEq a] :
    DecidableEq (Except e a)
  | .ok x, .ok y =>
    if h : x = y then .isTrue (by rw [h]) else .isFalse (by intro hh; cases hh; exact h rfl)
  | .error x, .error y =>
    if h : x = y then .isTrue (by rw [h]) else .isFalse (by intro hh; cases hh; exact h rfl)
  | .ok _, .error _ => .isFalse (by intro hh; cases hh)
  | .error _, .ok _ => .isFalse (by intro hh; cases hh)

/-- `breakSplitL` splits at a newline at which the lookahead succeeds, it
reconstructs its input, and it picks the *first* such newline. -/
theorem breakSplitL_spec : ∀ c l r : Chars, breakSplitL c = some (l, r) →
    l ++ '\n' :: r = c ∧
    (r = [] ∨ ∀ d, r.head? = some d → d ≠ ' ' ∧ d ≠ '\n') ∧
    (∀ l1 r1, c = l1 ++ '\n' :: r1 →
      (r1 = [] ∨ ∀ d, r1.head? = some d → d ≠ ' ' ∧ d ≠ '\n') →
      l.length ≤ l1.length) := by
  intro c
  induction c with
  | nil =>
    intro l r h
    simp [breakSplitL] at h
  | cons c rest ih =>
    intro l r h
    rw [breakSplitL] at h
    cases hcb : (c = '\n' && breakHere rest) with
    | true =>
      rw [hcb, if_pos rfl] at h
      simp only [Option.some.injEq, Prod.mk.injEq] at h
      obtain ⟨h1, h2⟩ := h
      subst h1; subst h2
      simp only [Bool.and_eq_true, decide_eq_true_eq] at hcb
      obtain ⟨hc1, hc2⟩ := hcb
      subst hc1
      refine ⟨rfl, ?_, fun l1 r1 _ _ => Nat.zero_le _⟩
      cases rest with
      | nil => exact Or.inl rfl
      | cons d r' =>
        refine Or.inr ?_
        intro x hx
        simp only [List.head?_cons, Option.some.injEq] at hx
        subst hx
        simp only [breakHere, ne_eq, Bool.and_eq_true, decide_eq_true_eq] at hc2
        exact hc2
    | false =>
      rw [hcb] at h
      simp only [Bool.false_eq_true, if_false] at h
      cases hrec : breakSplitL rest with
      | none => rw [hrec] at h; simp at h
      | some p =>
        obtain ⟨l0, r0⟩ := p
        rw [hrec] at h
        simp only [Option.some.injEq, Prod.mk.injEq] at h
        obtain ⟨h1, h2⟩ := h
        subst h1; subst h2
        obtain ⟨ih1, ih2, ih3⟩ := ih l0 r0 hrec
        refine ⟨by rw [List.cons_append, ih1], ih2, ?_⟩
        intro l1 r1 hc hg
        cases l1 with
        | nil =>
          simp only [List.nil_append] at hc
          injection hc with hx1 hx2
          subst hx1
          exfalso
          have hbh : breakHere rest = false := by
            cases hb : breakHere rest
            · rfl
            · rw [hb] at hcb
              simp at hcb
          rw [← hx2] at hg
          cases rest with
          | nil => simp [breakHere] at hbh
          | cons d r' =>
            cases hg with
            | inl hnil => exact absurd hnil (List.cons_ne_nil d r')
            | inr hgood =>
              have hdd := hgood d rfl
              simp only [breakHere, ne_eq] at hbh
              rcases Bool.and_eq_false_iff.mp hbh with hs | hn
              · exact hdd.1 (by simpa using hs)
              · exact hdd.2 (by simpa using hn)
        | cons x l1' =>
          simp only [List.cons_append, List.cons.injEq] at hc
          have := ih3 l1' r1 hc.2 hg
          simp only [List.length_cons]
          omega

/-- When the first content line is indented and the break pattern matches,
one NumPy section renders the dedented part before the break and appends
the tail unmodified. -/
theorem processNumpySection_split (hd ct : String) (l r : Chars)
    (hh : ct.data.head? = some ' ') (hs : breakSplitL ct.data = some (l, r)) :
    processNumpySectionL hd.data ct.data =
      (renderNumpySection hd.data (dedentL l)).map (· ++ r) := by
  unfold processNumpySectionL
  rw [if_pos hh, hs]
  cases hr : renderNumpySection hd.data (dedentL l) <;>
    simp [hr, Except.map, Bind.bind, Except.bind, Pure.pure, Except.pure]

/-- When the split condition does not hold, the whole content is rendered
and nothing is split off. -/
theorem processNumpySection_nosplit (hd ct : String)
    (hc : ct.data.head? ≠ some ' ' ∨ breakSplitL ct.data = none) :
    processNumpySectionL hd.data ct.data =
      renderNumpySection hd.data (dedentL ct.data) := by
  unfold processNumpySectionL
  rcases hc with hc | hc
  · rw [if_neg hc]
    cases hr : renderNumpySection hd.data (dedentL ct.data) <;>
      simp [hr, Except.map, Bind.bind, Except.bind, Pure.pure, Except.pure]
  · by_cases hh : ct.data.head? = some ' '
    · rw [if_pos hh, hc]
      cases hr : renderNumpySection hd.data (dedentL ct.data) <;>
        simp [hr, Except.map, Bind.bind, Except.bind, Pure.pure, Except.pure]
    · rw [if_neg hh]
      cases hr : renderNumpySection hd.data (dedentL ct.data) <;>
        simp [hr, Except.map, Bind.bind, Except.bind, Pure.pure, Except.pure]

/-- Modelled from the spec text of claim C6 (not from the source): the
content "contains a later line that is neither blank nor indented". -/
def specNumpyTailCondition (c : String) : Bool :=
  ((splitNL c.data).drop 1).any (fun l => l ≠ [] && l.head? ≠ some ' ')

/-- **C6 (counterexample).** The claim's condition for splitting off a tail
is wrong at one boundary: for section content `"  hello\n"` there is no
later line that is neither blank nor indented, so by the claim no tail
would be split off and the rendered section would keep the trailing
newline; but the code's pattern `\n(?![ \n])` also matches the final
newline (the lookahead succeeds at end of string), so an empty tail is
split off and the trailing newline is dropped. -/
theorem numpy_tail_split_counterexample :
    specNumpyTailCondition "  hello\n" = false ∧
    processNumpySection "Notes" "  hello\n" ≠
      renderNumpySectionStr "Notes" (pyDedent "  hello\n") ∧
    processNumpySection "Notes" "  hello\n" = .ok "###### Notes\nhello" ∧
    renderNumpySectionStr "Notes" (pyDedent "  hello\n") = .ok "###### Notes\nhello\n" := by
  refine ⟨by decide, by decide, by rfl, by rfl⟩

/-- **C6 (amended).** For every (heading, content) pair of the NumPy
section split: if the first line of the content is indented and the content
contains a newline not followed by a space or a newline (including a final
newline at the very end), then the content is cut at the *first* such
newline, the part before it is dedented and rendered, and the trailing part
is appended unmodified after the rendered section; otherwise no tail is
split off. -/
theorem numpy_tail_split (hd ct : String) :
    (∀ l r, ct.data.head? = some ' ' → breakSplitL ct.data = some (l, r) →
      processNumpySectionL hd.data ct.data =
        (renderNumpySection hd.data (dedentL l)).map (· ++ r) ∧
      l ++ '\n' :: r = ct.data ∧
      (r = [] ∨ ∀ d, r.head? = some d → d ≠ ' ' ∧ d ≠ '\n') ∧
      (∀ l1 r1, ct.data = l1 ++ '\n' :: r1 →
        (r1 = [] ∨ ∀ d, r1.head? = some d → d ≠ ' ' ∧ d ≠ '\n') →
        l.length ≤ l1.length)) ∧
    (ct.data.head? ≠ some ' ' ∨ breakSplitL ct.data = none →
      processNumpySectionL hd.data ct.data =
        renderNumpySection hd.data (dedentL ct.data)) := by
  constructor
  · intro l r hh hs
    obtain ⟨h1, h2, h3⟩ := breakSplitL_spec ct.data l r hs
    exact ⟨processNumpySection_split hd ct l r hh hs, h1, h2, h3⟩
  · exact processNumpySection_nosplit hd ct

/-- Witness for C6 (amended): a section content with a tail and one
without. -/
theorem numpy_tail_split_witness :
    processNumpySectionL ("Notes").data ("  a\nb").data =
      (renderNumpySection ("Notes").data (dedentL ("  a").data)).map (· ++ ("b").data) ∧
    processNumpySectionL ("Notes").data ("hello").data =
      renderNumpySection ("Notes").data (dedentL ("hello").data) :=
  ⟨((numpy_tail_split "Notes" "  a\nb").1 ("  a").data ("b").data (by rfl) (by rfl)).1,
   (numpy_tail_split "Notes" "hello").2 (Or.inl (by decide))⟩

/-- **C1 (counterexample).** The diagnostic failure does not in general
carry the *original* input text: it carries the docstring variable at the
moment of the failure, which earlier stages may already have transformed.
For `":math:`x`\nParameters\n----------\n  \n  foo"` with tag `numpy`, the
rst stage first rewrites the math role, then the numpy stage fails; the
resulting diagnostic message does not contain the original `":math:`x`"`. -/
theorem convert_diag_not_original_counterexample :
    convert ":math:`x`\nParameters\n----------\n  \n  foo" "numpy" none emptyFS 7 =
      .error (.runtimeError
        "Docstring processing failed for docstring=\n\"\"\"\n\\\\( x \\\\)\nParameters\n----------\n  \n  foo\n\"\"\"\nsource_file=None\ndocformat=\x27numpy\x27"
        (some (.assertionError "\nfoo"))) ∧
    strContains
      "Docstring processing failed for docstring=\n\"\"\"\n\\\\( x \\\\)\nParameters\n----------\n  \n  foo\n\"\"\"\nsource_file=None\ndocformat=\x27numpy\x27"
      ":math:`x`" = false := by
  refine ⟨by rfl, by decide⟩

/-- **C1 (amended).** The failure boundary of `convert`: (1) every failure
matching `AnyException` is re-raised as a single diagnostic `RuntimeError`
carrying the docstring text *as of the point of failure* (equal to the
original input only when no earlier stage transformed it), the tag and the
source location, with the original exception as cause; (2) an exception not
matching `AnyException` propagates unchanged; (3) a user interrupt
(`KeyboardInterrupt`) does not match `AnyException`, so it is never
intercepted; (4) consequently every error `convert` returns is such a
diagnostic failure whose message carries the tag and source location and
whose cause is catchable. -/
theorem convert_failure_boundary (d df : String) (sf : Option String) (fs : FS)
    (fuel : Nat) :
    (∀ dmid e, isAnyException e = true →
        convertHandle dmid sf df e =
          .error (.runtimeError (diagMsg dmid sf df) (exnCause e))) ∧
    (∀ dmid e, isAnyException e = false → convertHandle dmid sf df e = .error e) ∧
    isAnyException (.base .keyboardInterrupt) = false ∧
    (∀ e, convert d df sf fs fuel = .error e → isWrappedDiag (pyLower df) sf e = true) := by
  refine ⟨?_, ?_, rfl, ?_⟩
  · intro dmid e he
    simp [convertHandle, he]
  · intro dmid e he
    simp [convertHandle, he]
  · intro e h
    simp only [convert] at h
    cases habc : (strContains (pyLower df) "google" || strContains (pyLower df) "numpy" ||
        strContains (pyLower df) "restructuredtext") with
    | false =>
      rw [habc] at h
      simp only [Bool.false_eq_true, if_false] at h
      exact convertStep2_err _ _ _ _ _ h
    | true =>
      rw [habc] at h
      simp only [if_true] at h
      cases hrr : (rst d sf fs fuel).mapError (fun _ => Exn.base .recursionError) with
      | ok d1 =>
        rw [hrr] at h
        exact convertStep2_err _ _ _ _ _ h
      | error e1 =>
        rw [hrr] at h
        have he1 := stage_rst_err _ _ hrr
        subst he1
        exact convertHandle_err_wrapped _ _ _ _ BaseExn.recursionError (by simp) h

/-- Witness for C1 (amended): the boundary wraps a concrete catchable
exception with the diagnostic, passes `KeyboardInterrupt` through, and a
concrete failing conversion yields a wrapped diagnostic. -/
theorem convert_failure_boundary_witness :
    convertHandle "mid" none "numpy" (.base (.assertionError "boom")) =
      .error (.runtimeError (diagMsg "mid" none "numpy")
        (exnCause (.base (.assertionError "boom")))) ∧
    convertHandle "mid" none "numpy" (.base .keyboardInterrupt) =
      .error (.base .keyboardInterrupt) ∧
    isWrappedDiag (pyLower "numpy") none
      (.runtimeError
        "Docstring processing failed for docstring=\n\"\"\"\nParameters\n----------\n  \n  zz\n\"\"\"\nsource_file=None\ndocformat=\x27numpy\x27"
        (some (.assertionError "\nzz"))) = true :=
  ⟨(convert_failure_boundary "x" "numpy" none emptyFS 7).1 "mid" _ (by decide),
   (convert_failure_boundary "x" "numpy" none emptyFS 7).2.1 "mid" _ (by decide),
   (convert_failure_boundary "Parameters\n----------\n  \n  zz" "numpy" none emptyFS 7).2.2.2
     _ (by rfl)⟩

/-- **C5.** The two-pass footnote resolution: (1) `_rst_footnotes` runs the
definition pass and then the reference pass, each with its own counter
starting at 1; (2) a non-anonymous reference is replaced by `[^id]` exactly
when its stripped id was registered as defined, and left unchanged (the
whole match re-emitted) otherwise, without touching the counter; (3) an
anonymous reference consumes the reference pass's own counter; (4) two
end-to-end anchors: an anonymous definition/reference pair resolves to
`fn-1` on both sides, and a reference without a definition stays as-is. -/
theorem footnote_passes (fns : List Chars) (n : Nat) (id : Chars) :
    (∀ s : Chars, rstFootnotesL s =
      subScanSt (tryFnRef (registerFnGo ((linesKE s).length + 1) [] 1 (linesKE s)).1)
        ((registerFnGo ((linesKE s).length + 1) [] 1 (linesKE s)).2.length + 1) 1
        (registerFnGo ((linesKE s).length + 1) [] 1 (linesKE s)).2) ∧
    (containsSub ("*#").data id = false →
      (fns.contains (lstripSet ['#', '*'] id) = true →
        replaceOneFnRef fns n id = (("[^").data ++ lstripSet ['#', '*'] id ++ [']'], n)) ∧
      (fns.contains (lstripSet ['#', '*'] id) = false →
        replaceOneFnRef fns n id = ('[' :: id ++ ("]_").data, n))) ∧
    (replaceOneFnRef fns n ("#").data =
      (if fns.contains (("fn-" ++ toString n)).data then
         ("[^").data ++ ("fn-" ++ toString n).data ++ [']']
       else ("[#]_").data, n + 1)) ∧
    _rst_footnotes ".. [#] A\nsee [#]_" = "[^fn-1]: A\nsee [^fn-1]" ∧
    _rst_footnotes "see [5]_" = "see [5]_" := by
  refine ⟨?_, ?_, ?_, by rfl, by rfl⟩
  · intro s
    show (match registerFnGo ((linesKE s).length + 1) [] 1 (linesKE s) with
      | (f2, c1) => subScanSt (tryFnRef f2) (c1.length + 1) 1 c1) =
      subScanSt (tryFnRef (registerFnGo ((linesKE s).length + 1) [] 1 (linesKE s)).1)
        ((registerFnGo ((linesKE s).length + 1) [] 1 (linesKE s)).2.length + 1) 1
        (registerFnGo ((linesKE s).length + 1) [] 1 (linesKE s)).2
    rcases hreg : registerFnGo ((linesKE s).length + 1) [] 1 (linesKE s) with ⟨f2, c1⟩
    rfl
  · intro hanon
    constructor <;> intro hmem
    · have hmem2 : lstripSet ['#', '*'] id ∈ fns := by simpa using hmem
      simp [replaceOneFnRef, resolveFnId, hanon, hmem2]
    · have hmem2 : lstripSet ['#', '*'] id ∉ fns := by simpa using hmem
      simp [replaceOneFnRef, resolveFnId, hanon, hmem2]
  · simp only [replaceOneFnRef, resolveFnId]
    have hc : containsSub ("*#").data ("#").data = true := by decide
    rw [hc]
    simp only [if_true]
    have hl : lstripSet ['#', '*'] (("fn-" ++ toString n)).data = (("fn-" ++ toString n)).data := by
      rw [string_data_append]
      show List.dropWhile _ (('f' :: ('n' :: ('-' :: []))) ++ (toString n).data) = _
      rfl
    rw [hl]
    split <;> rfl

/-- Witness for C5: a registered reference resolves, an unregistered one is
left as matched, and an anonymous one advances the counter. -/
theorem footnote_passes_witness :
    replaceOneFnRef [("1").data] 5 ("1").data = (("[^1]").data, 5) ∧
    replaceOneFnRef [] 5 ("7").data = (("[7]_").data, 5) ∧
    replaceOneFnRef [] 3 ("#").data = (("[#]_").data, 4) :=
  ⟨((footnote_passes [("1").data] 5 ("1").data).2.1 (by decide)).1 (by decide),
   ((footnote_passes [] 5 ("7").data).2.1 (by decide)).2 (by decide),
   (footnote_passes [] 3 ("#").data).2.2.1⟩

/-- When every byte read fails, an image-reference match is replaced by the
matched text itself. -/
theorem imgMatcher_fail_open (tryI : Chars → Option ImgMatch) (fs : FS) (sf : String)
    (hb : ∀ p, fs.readBytes p = none) :
    ∀ s r k, imgMatcher tryI fs sf s = some (r, k) → r = s.take k := by
  intro s r k h
  unfold imgMatcher at h
  cases ht : tryI s with
  | none => rw [ht] at h; cases h
  | some m =>
    rw [ht] at h
    unfold embedLocalImage localImageToDataUri at h
    simp only [hb, Option.some.injEq, Prod.mk.injEq] at h
    obtain ⟨h1, h2⟩ := h
    rw [← h1, ← h2]

/-- **C7.** Resource failures are recovered locally and conversion
continues: (1) when no referenced file can be read, `embed_images` is the
identity on any docstring — every image reference is left unchanged; (2) an
`include` whose file cannot be read emits a `Cannot include` warning and
substitutes empty content, and the admonition pass continues with the rest
of the document; (3, 4) end-to-end, `convert` succeeds on a docstring with
an unreadable image and on one with an unreadable include. -/
theorem resource_failures_recovered (fs : FS) (sf : String) (s : String)
    (hb : ∀ p, fs.readBytes p = none) :
    embed_images s sf fs = s ∧
    (∀ p, rstAdmonitionsCore 2 emptyFS (some p) (".. include:: missing.txt\nrest").data =
      .ok (("\n\n\nrest").data, [Warning.cannotInclude "missing.txt"])) ∧
    convert "![alt](pic.png)" "google" (some "pkg/doc.py") emptyFS 7 = .ok "![alt](pic.png)" ∧
    convert ".. include:: gone.txt\nrest" "restructuredtext" (some "pkg/doc.py") emptyFS 7 =
      .ok "\n\n\nrest" := by
  refine ⟨?_, fun p => rfl, by rfl, by rfl⟩
  show String.mk (embedImagesL fs sf s.data) = s
  unfold embedImagesL
  rw [subScan_id _ (imgMatcher_fail_open tryImgMd fs sf hb),
      subScan_id _ (imgMatcher_fail_open tryImgSrc fs sf hb)]

/-- Witness for C7: with the empty filesystem, a docstring with one
Markdown image and one `src` attribute is unchanged. -/
theorem resource_failures_recovered_witness :
    embed_images "![alt](pic.png) and src=\"img.jpg\"" "pkg/doc.py" emptyFS =
      "![alt](pic.png) and src=\"img.jpg\"" :=
  (resource_failures_recovered emptyFS "pkg/doc.py" "![alt](pic.png) and src=\"img.jpg\""
    (fun _ => rfl)).1

/-- A property holding of every success of `f` holds of a `findSome?`. -/
theorem findSome?_props {α β : Type} (f : α → Option β) (P : β → Prop)
    (hf : ∀ x r, f x = some r → P r) :
    ∀ (l : List α) (r : β), l.findSome? f = some r → P r := by
  intro l
  induction l with
  | nil =>
    intro r h
    simp [List.findSome?] at h
  | cons a t ih =>
    intro r h
    rw [List.findSome?_cons] at h
    cases hfa : f a with
    | some b =>
      rw [hfa] at h
      cases h
      exact hf a _ hfa
    | none =>
      rw [hfa] at h
      exact ih r h

/-- Every successful target decomposition has an `http`-prefixed url. -/
theorem tryLinkTargetDecomp_http (s : Chars) (l : Nat) (id url : Chars) (k : Nat)
    (h : tryLinkTargetDecomp s l = some (id, url, k)) :
    ("http").data.isPrefixOf url = true := by
  simp only [tryLinkTargetDecomp] at h
  repeat (any_goals (first | (cases h) | (split at h)))
  all_goals (rename_i hcond; exact (Bool.and_eq_true _ _ |>.mp hcond).1)

/-- **C10.** The hyperlink-target definition pass only matches targets
whose url starts with `http`: (1) every successful target match, at any
line start and for any choice of the leading whitespace, has an
`http`-prefixed url — so only such targets are ever registered and
removed; (2) at a line start where the target pattern does not match, the
scan keeps the character and adds no registry entry; (3) a reference whose
normalized id is not in the registry is replaced by the matched text
itself, i.e. left untouched; (4, 5) end-to-end anchors: a non-`http`
target line and the references to it are all left unchanged, while an
`http` target with its url on the next line (the whitespace of the pattern
spans newlines) is registered, removed, and resolved. -/
theorem link_target_requires_http (s : Chars) :
    (∀ id url k, tryLinkTargetAt s = some (id, url, k) →
      ("http").data.isPrefixOf url = true) ∧
    (∀ f links c rest, tryLinkTargetAt (c :: rest) = none →
      registerLinksScan (f + 1) links true (c :: rest) =
        ((registerLinksScan f links (c == '\n') rest).1,
          c :: (registerLinksScan f links (c == '\n') rest).2)) ∧
    (∀ links id, links.lookup (normalizeLinkRef id) = none →
      replace_link links id = id ++ ['_']) ∧
    _rst_links ".. _foo: ftp://example\nsee foo_ and `foo`_" =
      ".. _foo: ftp://example\nsee foo_ and `foo`_" ∧
    _rst_links ".. _a:\nhttp://x\nsee `a`_" = "\nsee [a](http://x)" := by
  refine ⟨?_, ?_, ?_, by rfl, by rfl⟩
  · intro id url k h
    unfold tryLinkTargetAt at h
    exact findSome?_props (tryLinkTargetDecomp s)
      (fun r => ("http").data.isPrefixOf r.2.1 = true)
      (fun x r hr => tryLinkTargetDecomp_http s x r.1 r.2.1 r.2.2 (by
        rw [hr])) _ _ h
  · intro f links c rest h
    show (match cond true (tryLinkTargetAt (c :: rest)) none with
      | some (id, url, k) =>
        registerLinksScan f ((normalizeLinkId id, url) :: links) false
          ((c :: rest).drop k)
      | none =>
        let p := registerLinksScan f links (c == '\n') rest
        (p.1, c :: p.2)) =
      ((registerLinksScan f links (c == '\n') rest).1,
        c :: (registerLinksScan f links (c == '\n') rest).2)
    rw [cond_true, h]
  · intro links id h
    unfold replace_link
    rw [h]

/-- Witness for C10: an `http` target parses, a non-`http` target line is
kept with no entry, and an unknown reference is left untouched. -/
theorem link_target_requires_http_witness :
    ("http").data.isPrefixOf ("http://x").data = true ∧
    registerLinksScan 3 [] true (".. _foo: ftp://x").data =
      ([], (".. _foo: ftp://x").data) ∧
    replace_link [] ("z").data = ("z_").data :=
  ⟨(link_target_requires_http (".. _a: http://x").data).1 ("a").data ("http://x").data 15
     (by rfl),
   (link_target_requires_http []).2.1 2 [] '.' (". _foo: ftp://x").data (by rfl),
   (link_target_requires_http []).2.2.1 [] ("z").data (by rfl)⟩

end PdocSpec
